import Mathlib

/-!
Shallow embedding of the telegram_diffusers_bot admission/lifecycle core
(src/bot/queue.py, src/bot/handlers.py, src/bot/llm.py, src/bot/diffusion.py)
together with theorems settling the specification claims about it.
-/

/-! ## Configuration constants (src/bot/queue.py lines 5, 9) -/

def MAX_GLOBAL_CONCURRENT : Nat := 5

def MAX_PER_USER : Nat := 3

/-! ## Capacity limiter transition system (src/bot/queue.py, handlers.py lines 30-44)

`asyncio.Semaphore(n)` is a counting semaphore: `acquire` suspends until the
internal value is positive and decrements it; `release` increments it.  The
orchestrator acquires the global semaphore, then the per-user one
(`_acquire_semaphores`), and releases the per-user one first, then the global
one (`_release_semaphores`).  A job therefore passes through three holding
stages: holding only the global ticket (between the two acquires), holding
both (admitted), and holding only the global ticket again (between the two
releases).  The state records, as multisets of requester ids, which jobs are
in each stage; a semaphore's remaining value is its bound minus the tickets
held, so an acquire is enabled exactly when the held count is below the bound.
-/

structure LimState where
  pre : List Nat
  adm : List Nat
  post : List Nat
deriving DecidableEq

def globalHeld (s : LimState) : Nat :=
  s.pre.length + s.adm.length + s.post.length

def userHeld (s : LimState) (u : Nat) : Nat :=
  s.adm.count u

inductive LimStep : LimState → LimState → Prop
  | acqGlobal (s : LimState) (u : Nat)
      (hg : globalHeld s < MAX_GLOBAL_CONCURRENT) :
      LimStep s ⟨u :: s.pre, s.adm, s.post⟩
  | acqUser (s : LimState) (u : Nat)
      (hmem : u ∈ s.pre) (hu : userHeld s u < MAX_PER_USER) :
      LimStep s ⟨s.pre.erase u, u :: s.adm, s.post⟩
  | relUser (s : LimState) (u : Nat) (hmem : u ∈ s.adm) :
      LimStep s ⟨s.pre, s.adm.erase u, u :: s.post⟩
  | relGlobal (s : LimState) (u : Nat) (hmem : u ∈ s.post) :
      LimStep s ⟨s.pre, s.adm, s.post.erase u⟩

def initState : LimState := ⟨[], [], []⟩

def LimReachable (s : LimState) : Prop :=
  Relation.ReflTransGen LimStep initState s

def LimInv (s : LimState) : Prop :=
  globalHeld s ≤ MAX_GLOBAL_CONCURRENT ∧ ∀ u, userHeld s u ≤ MAX_PER_USER

/-! ## Job registry (src/bot/queue.py line 13, handlers.py lines 76, 103, 228-239)

`user_tasks` is a dict mapping a user id to the task handle of that user's
most recently registered generation.  Registration is plain dict assignment
(overwrite); cleanup is `user_tasks.pop(user_id, None)` (removal by key);
`/cancel` is `user_tasks.get(user_id)` followed by a `done()` check.
Task handles are modelled by job ids (`Nat`); `done` is an environment
predicate saying which jobs have finished.
-/

def Registry : Type := Nat → Option Nat

def regSet (r : Registry) (u j : Nat) : Registry :=
  fun v => if v = u then some j else r v

def regPop (r : Registry) (u : Nat) : Registry :=
  fun v => if v = u then none else r v

def regGet (r : Registry) (u : Nat) : Option Nat :=
  r u

inductive CancelReply
  | cancelled (j : Nat)
  | nothingToCancel
deriving DecidableEq

def cancelHandler (r : Registry) (done : Nat → Bool) (u : Nat) : CancelReply :=
  match r u with
  | some j => if done j then CancelReply.nothingToCancel else CancelReply.cancelled j
  | none => CancelReply.nothingToCancel

/-! ## Prompt backend fallback (src/bot/llm.py lines 17-42)

`generate_prompt_from_idea` returns `idea_text.strip()` when no client is
configured; with a client it returns the LLM reply stripped.  Python's
`str.strip()` removes leading and trailing whitespace; `pyStrip` models it by
dropping whitespace characters from both ends of the character list.  The
client, when present, is an oracle `String → String`.
-/

def pyStrip (s : String) : String :=
  String.mk
    (((s.data.dropWhile Char.isWhitespace).reverse.dropWhile
        Char.isWhitespace).reverse)

def generate_prompt_from_idea (client : Option (String → String))
    (idea_text : String) : String :=
  match client with
  | none => pyStrip idea_text
  | some call => pyStrip (call idea_text)

/-! ## Generation backend invocation (src/bot/diffusion.py lines 49-75)

`generate_image` calls the cached pipeline with `height=size[0]` and
`width=size[1]`.  The record below captures the keyword arguments of that
call.
-/

structure PipelineCall where
  prompt : String
  height : Nat
  width : Nat
  num_inference_steps : Nat
deriving DecidableEq

def generate_image_call (prompt : String) (size : Nat × Nat) (steps : Nat) :
    PipelineCall :=
  ⟨prompt, size.1, size.2, steps⟩

/-! ## LoRA application (src/bot/diffusion.py lines 32-47)

`_apply_loras` iterates over the requested names: a name whose file is not on
disk is skipped with `continue`; a load failure is caught and printed.  The
loop body never raises, so the function is total.  `onDisk` models
`os.path.isfile`, `loadOk` models whether `load_lora_weights` succeeds.
-/

inductive LoraEvent
  | loaded (name : String)
  | skippedMissing (name : String)
  | loadFailed (name : String)
deriving DecidableEq

def applyLorasEvents (onDisk loadOk : String → Bool) :
    List String → List LoraEvent
  | [] => []
  | n :: rest =>
    (if onDisk n then
       (if loadOk n then LoraEvent.loaded n else LoraEvent.loadFailed n)
     else LoraEvent.skippedMissing n) :: applyLorasEvents onDisk loadOk rest

/-! ## Cached pipeline state (src/bot/diffusion.py lines 10-47)

The pipeline is a module-level singleton, created once and cached in
`_pipeline`; `load_lora_weights` mutates it and nothing ever unloads a LoRA.
The pipeline's enhancement configuration is modelled as the list of LoRA
names loaded into it so far, `none` meaning not yet created.
-/

structure DiffusionModuleState where
  pipeline : Option (List String)
deriving DecidableEq

def load_pipeline_s (s : DiffusionModuleState) :
    DiffusionModuleState × List String :=
  match s.pipeline with
  | some cfg => (⟨some cfg⟩, cfg)
  | none => (⟨some []⟩, [])

def generate_image_s (s : DiffusionModuleState) (onDisk loadOk : String → Bool)
    (lora_names : List String) : DiffusionModuleState × List String :=
  let lc := load_pipeline_s s
  let cfg2 := lc.2 ++ lora_names.filter (fun n => onDisk n && loadOk n)
  (⟨some cfg2⟩, cfg2)

/-! ## Orchestrator control flow (src/bot/handlers.py lines 52-103)

`_run_generation_task` is modelled as a trace of observable events plus how
the coroutine terminates.  Python exception semantics relevant here: `except
Exception` catches ordinary exceptions but not `asyncio.CancelledError`
(a `BaseException`); a `finally` block runs only if its `try` was entered.
Faults (an exception or a cancellation) can be injected at the awaits: the
progress-message send (line 79, before the `try`), the backend call
(line 83), and result delivery (lines 94-96).
-/

inductive PyExc
  | exc (msg : String)
  | cancelledError
deriving DecidableEq

inductive Event
  | acquireGlobal
  | acquireUser (u : Nat)
  | registerTask (u : Nat)
  | sendProgress
  | pipelineLoad
  | lora (e : LoraEvent)
  | pipelineRun
  | sendDocument
  | editSuccess
  | editFailure (msg : String)
  | releaseUser (u : Nat)
  | releaseGlobal
  | unregister (u : Nat)
deriving DecidableEq

inductive RunResult
  | normal
  | raised (e : PyExc)
deriving DecidableEq

structure Faults where
  atProgress : Option PyExc
  atBackend : Option PyExc
  atDeliver : Option PyExc

structure GenConfig where
  onDisk : String → Bool
  loadOk : String → Bool
  loraNames : List String

def noFaults : Faults := ⟨none, none, none⟩

def cfg0 : GenConfig := ⟨fun _ => true, fun _ => true, []⟩

def tryBlock (cfg : GenConfig) (f : Faults) : List Event × Option PyExc :=
  let levs := Event.pipelineLoad ::
    (applyLorasEvents cfg.onDisk cfg.loadOk cfg.loraNames).map Event.lora
  match f.atBackend with
  | some e => (levs, some e)
  | none =>
    match f.atDeliver with
    | some e => (levs ++ [Event.pipelineRun], some e)
    | none => (levs ++ [Event.pipelineRun, Event.sendDocument,
               Event.editSuccess], none)

def tryExcept (cfg : GenConfig) (f : Faults) : List Event × Option PyExc :=
  let tb := tryBlock cfg f
  match tb.2 with
  | some (PyExc.exc m) => (tb.1 ++ [Event.editFailure m], none)
  | some PyExc.cancelledError => (tb.1, some PyExc.cancelledError)
  | none => (tb.1, none)

def releaseSemaphores (u : Nat) : List Event :=
  [Event.releaseUser u, Event.releaseGlobal]

def finallyBlock (u : Nat) : List Event :=
  releaseSemaphores u ++ [Event.unregister u]

def runGenerationTask (u : Nat) (cfg : GenConfig) (f : Faults) :
    List Event × RunResult :=
  match f.atProgress with
  | some e =>
    ([Event.acquireGlobal, Event.acquireUser u, Event.registerTask u],
     RunResult.raised e)
  | none =>
    let te := tryExcept cfg f
    ([Event.acquireGlobal, Event.acquireUser u, Event.registerTask u,
      Event.sendProgress] ++ te.1 ++ finallyBlock u,
     match te.2 with
     | some e => RunResult.raised e
     | none => RunResult.normal)

def countE (e : Event) : List Event → Nat
  | [] => 0
  | x :: t => (if x = e then 1 else 0) + countE e t

def idxOfE (e : Event) : List Event → Nat
  | [] => 0
  | x :: t => if x = e then 0 else idxOfE e t + 1

/-! ## Helper lemmas -/

theorem countE_append (e : Event) (l1 l2 : List Event) :
    countE e (l1 ++ l2) = countE e l1 + countE e l2 := by
  induction l1 with
  | nil => simp [countE]
  | cons x t ih =>
    show (if x = e then 1 else 0) + countE e (t ++ l2) = _
    rw [ih, countE]
    omega

theorem countE_map_lora (e : Event) (h : ∀ le, Event.lora le ≠ e)
    (l : List LoraEvent) : countE e (l.map Event.lora) = 0 := by
  induction l with
  | nil => rfl
  | cons x t ih => simp [countE, ih, h x]

theorem limStep_preserves {s t : LimState} (h : LimStep s t) (hs : LimInv s) :
    LimInv t := by
  obtain ⟨hg, hu⟩ := hs
  cases h with
  | acqGlobal u hlt =>
    refine ⟨?_, fun v => ?_⟩
    · simp only [globalHeld, List.length_cons] at *
      omega
    · simpa [userHeld] using hu v
  | acqUser u hmem hcnt =>
    have hpos := List.length_pos_of_mem hmem
    have herase := List.length_erase_of_mem hmem
    refine ⟨?_, fun v => ?_⟩
    · simp only [globalHeld, List.length_cons] at *
      omega
    · have hv := hu v
      simp only [userHeld] at hv hcnt ⊢
      rw [List.count_cons]
      rcases eq_or_ne u v with rfl | hne
      · simp only [MAX_PER_USER] at *
        simp
        omega
      · simp [hne]
        exact hv
  | relUser u hmem =>
    have hpos := List.length_pos_of_mem hmem
    have herase := List.length_erase_of_mem hmem
    refine ⟨?_, fun v => ?_⟩
    · simp only [globalHeld, List.length_cons] at *
      omega
    · have hv := hu v
      simp only [userHeld] at hv ⊢
      exact le_trans ((List.erase_sublist u s.adm).count_le v) hv
  | relGlobal u hmem =>
    have hle := (List.erase_sublist u s.post).length_le
    refine ⟨?_, fun v => ?_⟩
    · simp only [globalHeld] at *
      omega
    · simpa [userHeld] using hu v

theorem limReachable_inv {s : LimState} (h : LimReachable s) : LimInv s := by
  induction h with
  | refl =>
    exact ⟨by decide, fun u => by simp [userHeld, initState, MAX_PER_USER]⟩
  | tail hst hstep ih => exact limStep_preserves hstep ih

theorem skippedMissing_mem (onDisk lk : String → Bool) (n : String)
    (hmiss : onDisk n = false) :
    ∀ names : List String, n ∈ names →
      LoraEvent.skippedMissing n ∈ applyLorasEvents onDisk lk names := by
  intro names
  induction names with
  | nil => intro h; cases h
  | cons a t ih =>
    intro hmem
    rcases List.mem_cons.mp hmem with rfl | hmem'
    · simp [applyLorasEvents, hmiss]
    · exact List.mem_cons_of_mem _ (ih hmem')

theorem loaded_mem_onDisk (onDisk lk : String → Bool) :
    ∀ (names : List String) (n : String),
      LoraEvent.loaded n ∈ applyLorasEvents onDisk lk names →
        onDisk n = true := by
  intro names
  induction names with
  | nil => intro n h; cases h
  | cons a t ih =>
    intro n h
    rw [applyLorasEvents] at h
    rcases List.mem_cons.mp h with heq | h'
    · by_cases ha : onDisk a
      · by_cases hl : lk a
        · rw [if_pos ha, if_pos hl] at heq
          cases heq
          exact ha
        · rw [if_pos ha, if_neg hl] at heq
          cases heq
      · rw [if_neg ha] at heq
        cases heq
    · exact ih n h'

/-! ## Claim theorems -/

/-- C1: the claim that tickets are released and the registry entry removed on
every exit path after admission fails on the code: a cancellation delivered at
the progress-message await (handlers.py line 79), a suspension point after
admission and after registration but before the try/finally is entered,
propagates with no ticket released and no registry removal. -/
theorem c1_leak_at_progress_await :
    (runGenerationTask 7 cfg0 ⟨some PyExc.cancelledError, none, none⟩).2 =
      RunResult.raised PyExc.cancelledError ∧
    countE Event.releaseGlobal
      (runGenerationTask 7 cfg0 ⟨some PyExc.cancelledError, none, none⟩).1 = 0 ∧
    countE (Event.releaseUser 7)
      (runGenerationTask 7 cfg0 ⟨some PyExc.cancelledError, none, none⟩).1 = 0 ∧
    countE (Event.unregister 7)
      (runGenerationTask 7 cfg0 ⟨some PyExc.cancelledError, none, none⟩).1 = 0 ∧
    countE Event.acquireGlobal
      (runGenerationTask 7 cfg0 ⟨some PyExc.cancelledError, none, none⟩).1 = 1 ∧
    countE (Event.registerTask 7)
      (runGenerationTask 7 cfg0 ⟨some PyExc.cancelledError, none, none⟩).1 = 1 := by
  decide

/-- C2: at every reachable state of the capacity limiter, the number of
concurrently admitted jobs is at most MAX_GLOBAL_CONCURRENT (5) and each
requester's concurrently admitted jobs number at most MAX_PER_USER (3). -/
theorem c2_capacity_bounds (s : LimState) (h : LimReachable s) :
    s.adm.length ≤ MAX_GLOBAL_CONCURRENT ∧
    ∀ u, userHeld s u ≤ MAX_PER_USER := by
  have inv := limReachable_inv h
  refine ⟨?_, inv.2⟩
  have hg := inv.1
  simp only [globalHeld] at hg
  omega

theorem c2_capacity_bounds_witness :
    LimReachable ⟨[], [1], []⟩ ∧
    (LimState.mk [] [1] []).adm.length ≤ MAX_GLOBAL_CONCURRENT ∧
    userHeld ⟨[], [1], []⟩ 1 ≤ MAX_PER_USER := by
  have h1 : LimStep initState ⟨[1], [], []⟩ :=
    LimStep.acqGlobal initState 1 (by decide)
  have h2 : LimStep ⟨[1], [], []⟩ ⟨[], [1], []⟩ :=
    LimStep.acqUser ⟨[1], [], []⟩ 1 (by decide) (by decide)
  have hr : LimReachable ⟨[], [1], []⟩ :=
    Relation.ReflTransGen.tail
      (Relation.ReflTransGen.tail Relation.ReflTransGen.refl h1) h2
  exact ⟨hr, (c2_capacity_bounds _ hr).1, (c2_capacity_bounds _ hr).2 1⟩

/-- C3 as stated is false on the code: on a successful run the per-requester
release and the global release both occur before the registry removal, so the
unregister is last, not first. -/
theorem c3_counterexample :
    idxOfE (Event.releaseUser 1) (runGenerationTask 1 cfg0 noFaults).1 <
      idxOfE Event.releaseGlobal (runGenerationTask 1 cfg0 noFaults).1 ∧
    idxOfE Event.releaseGlobal (runGenerationTask 1 cfg0 noFaults).1 <
      idxOfE (Event.unregister 1) (runGenerationTask 1 cfg0 noFaults).1 ∧
    idxOfE (Event.unregister 1) (runGenerationTask 1 cfg0 noFaults).1 <
      (runGenerationTask 1 cfg0 noFaults).1.length := by
  decide

/-- C3 amended: on every path that enters the dispatch phase, terminal cleanup
releases the per-requester ticket first, then the global ticket, and removes
the registry entry last. -/
theorem c3_cleanup_order (u : Nat) (cfg : GenConfig) (f : Faults)
    (h : f.atProgress = none) :
    ∃ p, (runGenerationTask u cfg f).1 =
      p ++ [Event.releaseUser u, Event.releaseGlobal, Event.unregister u] := by
  refine ⟨[Event.acquireGlobal, Event.acquireUser u, Event.registerTask u,
    Event.sendProgress] ++ (tryExcept cfg f).1, ?_⟩
  simp [runGenerationTask, h, finallyBlock, releaseSemaphores]

theorem c3_cleanup_order_witness :
    noFaults.atProgress = none ∧
    ∃ p, (runGenerationTask 1 cfg0 noFaults).1 =
      p ++ [Event.releaseUser 1, Event.releaseGlobal, Event.unregister 1] :=
  ⟨rfl, c3_cleanup_order 1 cfg0 noFaults rfl⟩

/-- C4: registering a job overwrites the prior entry for the same requester,
so after R submits J1 and then J2 while J1 is still running, cancel(R) targets
J2, never J1. -/
theorem c4_cancel_targets_newest (r : Registry) (R J1 J2 : Nat)
    (done : Nat → Bool) (h : done J2 = false) :
    cancelHandler (regSet (regSet r R J1) R J2) done R =
      CancelReply.cancelled J2 ∧
    (J1 ≠ J2 →
      cancelHandler (regSet (regSet r R J1) R J2) done R ≠
        CancelReply.cancelled J1) := by
  have h2 : cancelHandler (regSet (regSet r R J1) R J2) done R =
      CancelReply.cancelled J2 := by
    simp [cancelHandler, regSet, h]
  refine ⟨h2, fun hne hc => hne ?_⟩
  rw [h2] at hc
  exact (CancelReply.cancelled.inj hc).symm

theorem c4_cancel_targets_newest_witness :
    (fun _ : Nat => false) 2 = false ∧
    cancelHandler (regSet (regSet (fun _ => none) 5 1) 5 2) (fun _ => false) 5 =
      CancelReply.cancelled 2 :=
  ⟨rfl, (c4_cancel_targets_newest (fun _ => none) 5 1 2 (fun _ => false) rfl).1⟩

/-- C5: if the backend invocation raises an ordinary exception, the run ends
normally (the exception is absorbed), exactly one failure notification
carrying the exception's message is emitted, no success notification is
emitted, and the tickets and registry entry are released exactly once. -/
theorem c5_backend_failure_absorbed (u : Nat) (cfg : GenConfig) (m : String) :
    (runGenerationTask u cfg ⟨none, some (PyExc.exc m), none⟩).2 =
      RunResult.normal ∧
    countE (Event.editFailure m)
      (runGenerationTask u cfg ⟨none, some (PyExc.exc m), none⟩).1 = 1 ∧
    countE Event.editSuccess
      (runGenerationTask u cfg ⟨none, some (PyExc.exc m), none⟩).1 = 0 ∧
    countE (Event.releaseUser u)
      (runGenerationTask u cfg ⟨none, some (PyExc.exc m), none⟩).1 = 1 ∧
    countE Event.releaseGlobal
      (runGenerationTask u cfg ⟨none, some (PyExc.exc m), none⟩).1 = 1 ∧
    countE (Event.unregister u)
      (runGenerationTask u cfg ⟨none, some (PyExc.exc m), none⟩).1 = 1 := by
  refine ⟨rfl, ?_, ?_, ?_, ?_, ?_⟩ <;>
    simp [runGenerationTask, tryExcept, tryBlock, finallyBlock,
      releaseSemaphores, countE_append, countE_map_lora, countE]

/-- C6 as stated is false on the code: with no client configured the fallback
returns the stripped idea text, which differs from the input when the input
carries surrounding whitespace. -/
theorem c6_counterexample :
    generate_prompt_from_idea none " a " ≠ " a " := by decide

/-- C6 amended: when the prompt backend is unavailable, the fallback returns
the idea text with leading and trailing whitespace stripped — hence unchanged
for every input with no surrounding whitespace — and submission proceeds with
that prompt. -/
theorem c6_fallback_strips (s : String) :
    generate_prompt_from_idea none s = pyStrip s ∧
    (pyStrip s = s → generate_prompt_from_idea none s = s) :=
  ⟨rfl, fun h => h⟩

theorem c6_fallback_strips_witness :
    generate_prompt_from_idea none "a" = pyStrip "a" ∧
    generate_prompt_from_idea none "a" = "a" :=
  ⟨(c6_fallback_strips "a").1, (c6_fallback_strips "a").2 (by decide)⟩

/-- C7 as stated is false on the code: for size (640, 480) the pipeline is
invoked with width 480, not 640 — the first component is not the width. -/
theorem c7_counterexample :
    (generate_image_call "p" (640, 480) 30).width ≠ 640 := by decide

/-- C7 amended: the generation backend is invoked with the first component of
the size pair as the height and the second as the width. -/
theorem c7_size_order (p : String) (s : Nat × Nat) (st : Nat) :
    (generate_image_call p s st).height = s.1 ∧
    (generate_image_call p s st).width = s.2 :=
  ⟨rfl, rfl⟩

/-- C8: a requested enhancement asset whose file cannot be located is skipped
(never loaded) without aborting the loop, and the job still runs to the
success notification with no failure notice. -/
theorem c8_missing_asset_skipped (onDisk lk : String → Bool)
    (names : List String) (n : String) (u : Nat)
    (hmem : n ∈ names) (hmiss : onDisk n = false) :
    LoraEvent.skippedMissing n ∈ applyLorasEvents onDisk lk names ∧
    LoraEvent.loaded n ∉ applyLorasEvents onDisk lk names ∧
    (runGenerationTask u ⟨onDisk, lk, names⟩ noFaults).2 = RunResult.normal ∧
    countE Event.editSuccess
      (runGenerationTask u ⟨onDisk, lk, names⟩ noFaults).1 = 1 ∧
    ∀ m, countE (Event.editFailure m)
      (runGenerationTask u ⟨onDisk, lk, names⟩ noFaults).1 = 0 := by
  refine ⟨skippedMissing_mem onDisk lk n hmiss names hmem, ?_, rfl, ?_, ?_⟩
  · intro h
    have := loaded_mem_onDisk onDisk lk names n h
    rw [this] at hmiss
    cases hmiss
  · simp [runGenerationTask, tryExcept, tryBlock, noFaults, finallyBlock,
      releaseSemaphores, countE_append, countE_map_lora, countE]
  · intro m
    simp [runGenerationTask, tryExcept, tryBlock, noFaults, finallyBlock,
      releaseSemaphores, countE_append, countE_map_lora, countE]

theorem c8_missing_asset_skipped_witness :
    ("x" ∈ ["x"]) ∧ ((fun _ : String => false) "x" = false) ∧
    (runGenerationTask 2 ⟨fun _ => false, fun _ => true, ["x"]⟩ noFaults).2 =
      RunResult.normal :=
  ⟨List.mem_singleton.mpr rfl, rfl,
    (c8_missing_asset_skipped (fun _ => false) (fun _ => true) ["x"] "x" 2
      (List.mem_singleton.mpr rfl) rfl).2.2.1⟩

/-- C9: terminal cleanup removes the registry entry by requester key, not by
job identity: after an older job's cleanup runs over a newer registration for
the same requester, the entry is gone and cancel(R) reports nothing to cancel
although the newer job is still running. -/
theorem c9_pop_by_key (r : Registry) (R J1 J2 : Nat) (done : Nat → Bool)
    (_hrun : done J2 = false) :
    regGet (regPop (regSet (regSet r R J1) R J2) R) R = none ∧
    cancelHandler (regPop (regSet (regSet r R J1) R J2) R) done R =
      CancelReply.nothingToCancel := by
  constructor <;> simp [regGet, regPop, regSet, cancelHandler]

theorem c9_pop_by_key_witness :
    (fun _ : Nat => false) 2 = false ∧
    (regGet (regPop (regSet (regSet (fun _ => none) 5 1) 5 2) 5) 5 = none ∧
     cancelHandler (regPop (regSet (regSet (fun _ => none) 5 1) 5 2) 5)
       (fun _ => false) 5 = CancelReply.nothingToCancel) :=
  ⟨rfl, c9_pop_by_key (fun _ => none) 5 1 2 (fun _ => false) rfl⟩

/-- C10: LoRAs loaded into the process-wide cached pipeline persist across
jobs: a run on a pipeline already carrying configuration cfg keeps cfg as a
prefix of its effective configuration, and two runs with identical arguments
but different prior histories are configured differently. -/
theorem c10_pipeline_state_leaks :
    (∀ (cfg : List String) (onDisk lk : String → Bool) (names : List String),
        (generate_image_s ⟨some cfg⟩ onDisk lk names).2 =
          cfg ++ names.filter (fun n => onDisk n && lk n)) ∧
    (generate_image_s
        (generate_image_s ⟨none⟩ (fun _ => true) (fun _ => true) ["A"]).1
        (fun _ => true) (fun _ => true) []).2 ≠
      (generate_image_s ⟨none⟩ (fun _ => true) (fun _ => true) []).2 := by
  constructor
  · intro cfg onDisk lk names
    rfl
  · decide
